import Mathlib

/-!
Verification of the calibration core of NanoVNA-UTN-Toolkit
(src/NanoVNA_UTN_Toolkit/ui/calibration/methods.py and the calibration
dispatch of src/NanoVNA_UTN_Toolkit/ui/graphics_window.py, run_sweep).

The Python code works on 1-D numpy arrays of complex floats.  We embed a
complex value as a pair of rationals (the claims only involve exact
rational arithmetic), an array as a List Cplx, and each numpy element-wise
binary operation as a broadcast-checked operation returning none exactly
when numpy would raise a broadcasting ValueError (shapes (a,) and (b,)
combine iff a = b, a = 1 or b = 1).  Calls to logging.warning are modelled
by returning the list of warning messages alongside the value.
-/

/-- A complex number with rational components, modelling the complex
floats held in the numpy arrays of methods.py. -/
@[ext]
structure Cplx where
  re : Rat
  im : Rat
deriving DecidableEq

instance : Zero Cplx := ⟨⟨0, 0⟩⟩

instance : One Cplx := ⟨⟨1, 0⟩⟩

instance : Add Cplx := ⟨fun a b => ⟨a.re + b.re, a.im + b.im⟩⟩

instance : Sub Cplx := ⟨fun a b => ⟨a.re - b.re, a.im - b.im⟩⟩

instance : Mul Cplx := ⟨fun a b => ⟨a.re * b.re - a.im * b.im, a.re * b.im + a.im * b.re⟩⟩

/-- Complex division via the conjugate; a zero denominator yields 0
(rational division by zero), standing in for the inf/nan numpy produces -
no claim under study evaluates a zero denominator. -/
instance : Div Cplx :=
  ⟨fun a b =>
    ⟨(a.re * b.re + a.im * b.im) / (b.re * b.re + b.im * b.im),
     (a.im * b.re - a.re * b.im) / (b.re * b.re + b.im * b.im)⟩⟩

@[simp] theorem Cplx.zero_re : (0 : Cplx).re = 0 := rfl

@[simp] theorem Cplx.zero_im : (0 : Cplx).im = 0 := rfl

@[simp] theorem Cplx.one_re : (1 : Cplx).re = 1 := rfl

@[simp] theorem Cplx.one_im : (1 : Cplx).im = 0 := rfl

@[simp] theorem Cplx.add_re (a b : Cplx) : (a + b).re = a.re + b.re := rfl

@[simp] theorem Cplx.add_im (a b : Cplx) : (a + b).im = a.im + b.im := rfl

@[simp] theorem Cplx.sub_re (a b : Cplx) : (a - b).re = a.re - b.re := rfl

@[simp] theorem Cplx.sub_im (a b : Cplx) : (a - b).im = a.im - b.im := rfl

@[simp] theorem Cplx.mul_re (a b : Cplx) : (a * b).re = a.re * b.re - a.im * b.im := rfl

@[simp] theorem Cplx.mul_im (a b : Cplx) : (a * b).im = a.re * b.im + a.im * b.re := rfl

@[simp] theorem Cplx.div_re (a b : Cplx) :
    (a / b).re = (a.re * b.re + a.im * b.im) / (b.re * b.re + b.im * b.im) := rfl

@[simp] theorem Cplx.div_im (a b : Cplx) :
    (a / b).im = (a.im * b.re - a.re * b.im) / (b.re * b.re + b.im * b.im) := rfl

/-- numpy element-wise binary operation on two 1-D arrays, with the 1-D
broadcasting rule: equal lengths combine index-wise, a length-1 operand is
broadcast, and any other length mismatch raises (modelled as none). -/
def bcastOp (f : Cplx → Cplx → Cplx) (a b : List Cplx) : Option (List Cplx) :=
  if a.length = b.length then some (List.zipWith f a b)
  else if a.length = 1 then some (b.map (f (a.headD 0)))
  else if b.length = 1 then some (a.map (fun x => f x (b.headD 0)))
  else none

/-- The OSM correction arithmetic of methods.py (lines 76-79 and 191-193):
delta_e = source_match * directivity - reflection_tracking, then
(s11 - directivity) / (s11 * source_match - delta_e), as a chain of numpy
element-wise operations. -/
def osm_formula_core (directivity reflection_tracking source_match s11 : List Cplx) :
    Option (List Cplx) := do
  let smd ← bcastOp (· * ·) source_match directivity
  let delta_e ← bcastOp (· - ·) smd reflection_tracking
  let numer ← bcastOp (· - ·) s11 directivity
  let s11sm ← bcastOp (· * ·) s11 source_match
  let denom ← bcastOp (· - ·) s11sm delta_e
  bcastOp (· / ·) numer denom

/-- Methods.osm_calibrate_s11 (methods.py lines 22-93), with the error-term
vectors already extracted from the S1P files.  Returns the value (none when
numpy would raise) and the list of logging.warning messages emitted. -/
def osm_calibrate_s11 (directivity reflection_tracking source_match s11_med : List Cplx) :
    Option (List Cplx) × List String :=
  let cal_points := directivity.length
  let sweep_points := s11_med.length
  let original_s11_med := s11_med
  let warns : List String :=
    if cal_points ≠ sweep_points then
      ["[Calibrator] Size mismatch: calibration (" ++ toString cal_points ++
         ") vs sweep (" ++ toString sweep_points ++ ")",
       "[Calibrator] Please recalibrate with " ++ toString sweep_points ++
         " points for best accuracy"]
    else []
  let min_points := min cal_points sweep_points
  let s11 := if cal_points ≠ sweep_points then s11_med.take min_points else s11_med
  let d := if cal_points ≠ sweep_points then directivity.take min_points else directivity
  let rt := if cal_points ≠ sweep_points then reflection_tracking.take min_points
    else reflection_tracking
  let sm := if cal_points ≠ sweep_points then source_match.take min_points else source_match
  match osm_formula_core d rt sm s11 with
  | none => (none, warns)
  | some s11_cal =>
    if s11_cal.length < sweep_points then
      (some (s11_cal ++ original_s11_med.drop s11_cal.length),
       warns ++ ["[Calibrator] Padding " ++ toString (sweep_points - s11_cal.length) ++
         " uncalibrated points"])
    else (some s11_cal, warns)

/-- Methods.normalization_calibrate_s21 (methods.py lines 95-154), with the
transmission-tracking vector already extracted from the S2P file. -/
def normalization_calibrate_s21 (transmission_tracking s21_med : List Cplx) :
    Option (List Cplx) × List String :=
  let cal_points := transmission_tracking.length
  let sweep_points := s21_med.length
  let original_s21_med := s21_med
  let warns : List String :=
    if cal_points ≠ sweep_points then
      ["[Calibrator] S21 Size mismatch: calibration (" ++ toString cal_points ++
         ") vs sweep (" ++ toString sweep_points ++ ")",
       "[Calibrator] Please recalibrate with " ++ toString sweep_points ++
         " points for best accuracy"]
    else []
  let min_points := min cal_points sweep_points
  let s21 := if cal_points ≠ sweep_points then s21_med.take min_points else s21_med
  let tt := if cal_points ≠ sweep_points then transmission_tracking.take min_points
    else transmission_tracking
  match bcastOp (· / ·) s21 tt with
  | none => (none, warns)
  | some s21_cal =>
    if s21_cal.length < sweep_points then
      (some (s21_cal ++ original_s21_med.drop s21_cal.length),
       warns ++ ["[Calibrator] S21 Padding " ++ toString (sweep_points - s21_cal.length) ++
         " uncalibrated points"])
    else (some s21_cal, warns)

/-- Methods.one_port_n_calibrate (methods.py lines 156-202): no length
reconciliation, direct numpy arithmetic on the loaded vectors; a shape
mismatch makes an element-wise operation raise, modelled as none. -/
def one_port_n_calibrate
    (directivity reflection_tracking source_match transmission_tracking
      s11_med s21_med : List Cplx) : Option (List Cplx × List Cplx) := do
  let s11_cal ← osm_formula_core directivity reflection_tracking source_match s11_med
  let s21_cal ← bcastOp (· / ·) s21_med transmission_tracking
  return (s11_cal, s21_cal)

/-- Methods.enhanced_response_calibrate (methods.py lines 204-253):
load_match is read from its file (here: passed in already parsed) but never
used; s21_cal = (s21 / transmission_tracking) * (reflection_tracking /
(source_match * s11_med - delta_e)) with the raw s11_med. -/
def enhanced_response_calibrate
    (directivity reflection_tracking source_match transmission_tracking
      load_match s11_med s21_med : List Cplx) : Option (List Cplx × List Cplx) :=
  let _ := load_match
  do
  let smd ← bcastOp (· * ·) source_match directivity
  let delta_e ← bcastOp (· - ·) smd reflection_tracking
  let numer ← bcastOp (· - ·) s11_med directivity
  let s11sm ← bcastOp (· * ·) s11_med source_match
  let denom1 ← bcastOp (· - ·) s11sm delta_e
  let s11_cal ← bcastOp (· / ·) numer denom1
  let f1 ← bcastOp (· / ·) s21_med transmission_tracking
  let sms11 ← bcastOp (· * ·) source_match s11_med
  let denom2 ← bcastOp (· - ·) sms11 delta_e
  let f2 ← bcastOp (· / ·) reflection_tracking denom2
  let s21_cal ← bcastOp (· * ·) f1 f2
  return (s11_cal, s21_cal)

/-- Modelled from the spec: the plausible-looking variant of the
Enhanced-Response transmission correction that substitutes the corrected
S11 for the raw S11 in the second factor denominator; the spec demands the
implementation be distinguished from this variant numerically. -/
def enhanced_response_s21_variant
    (directivity reflection_tracking source_match transmission_tracking
      s11_med s21_med : List Cplx) : Option (List Cplx) := do
  let smd ← bcastOp (· * ·) source_match directivity
  let delta_e ← bcastOp (· - ·) smd reflection_tracking
  let numer ← bcastOp (· - ·) s11_med directivity
  let s11sm ← bcastOp (· * ·) s11_med source_match
  let denom1 ← bcastOp (· - ·) s11sm delta_e
  let s11_cal ← bcastOp (· / ·) numer denom1
  let f1 ← bcastOp (· / ·) s21_med transmission_tracking
  let sms11c ← bcastOp (· * ·) source_match s11_cal
  let denom2 ← bcastOp (· - ·) sms11c delta_e
  let f2 ← bcastOp (· / ·) reflection_tracking denom2
  bcastOp (· * ·) f1 f2

/-- The calibration dispatch of graphics_window.py run_sweep (the branch
with kits_ok false and no_calibration false, lines 4737-4769): branches on
the method string; any unrecognized method falls to the final else, which
assigns the raw arrays unchanged and contains no logging call.  Error-term
vectors are passed in already loaded from their respective directories. -/
def run_sweep_dispatch (calibration_method : String)
    (osm_d osm_rt osm_sm thru_tt er_d er_rt er_sm er_tt er_lm
      s11_med s21_med : List Cplx) :
    Option (List Cplx × List Cplx) × List String :=
  if calibration_method = "OSM (Open - Short - Match)" then
    let r := osm_calibrate_s11 osm_d osm_rt osm_sm s11_med
    (r.1.map (fun s11 => (s11, s21_med)), r.2)
  else if calibration_method = "Normalization" then
    let r := normalization_calibrate_s21 thru_tt s21_med
    (r.1.map (fun s21 => (s11_med, s21)), r.2)
  else if calibration_method = "1-Port+N" then
    let r1 := osm_calibrate_s11 osm_d osm_rt osm_sm s11_med
    match r1.1 with
    | none => (none, r1.2)
    | some a =>
      let r2 := normalization_calibrate_s21 thru_tt s21_med
      match r2.1 with
      | none => (none, r1.2 ++ r2.2)
      | some b => (some (a, b), r1.2 ++ r2.2)
  else if calibration_method = "Enhanced-Response" then
    (enhanced_response_calibrate er_d er_rt er_sm er_tt er_lm s11_med s21_med, [])
  else
    (some (s11_med, s21_med), [])

/-- os.path.join restricted to the relative components the calibration
code joins (POSIX separator). -/
def pathJoin (a b : String) : String := a ++ "/" ++ b

/-- methods.py line 231: error_dir_osm = os.path.join(thru_dir,
"enhanced_response_errors") - note the source joins thru_dir here, its
osm_dir argument is never used. -/
def enhanced_response_error_dir_osm (osm_dir thru_dir : String) : String :=
  let _ := osm_dir
  pathJoin thru_dir "enhanced_response_errors"

/-- methods.py line 232: directivity file path of enhanced_response_calibrate. -/
def enhanced_response_directivity_file (osm_dir thru_dir : String) : String :=
  pathJoin (enhanced_response_error_dir_osm osm_dir thru_dir) "directivity.s1p"

/-- methods.py line 233: reflection-tracking file path. -/
def enhanced_response_reflection_tracking_file (osm_dir thru_dir : String) : String :=
  pathJoin (enhanced_response_error_dir_osm osm_dir thru_dir) "reflection_tracking.s1p"

/-- methods.py line 234: source-match file path. -/
def enhanced_response_source_match_file (osm_dir thru_dir : String) : String :=
  pathJoin (enhanced_response_error_dir_osm osm_dir thru_dir) "source_match.s1p"

/-- methods.py line 244: error_dir_norm = os.path.join(thru_dir,
"enhanced_response_errors"). -/
def enhanced_response_error_dir_norm (thru_dir : String) : String :=
  pathJoin thru_dir "enhanced_response_errors"

/-- methods.py line 245: transmission-tracking file path. -/
def enhanced_response_transmission_tracking_file (thru_dir : String) : String :=
  pathJoin (enhanced_response_error_dir_norm thru_dir) "transmission_tracking.s2p"

/-- methods.py line 248: load-match file path. -/
def enhanced_response_load_match_file (thru_dir : String) : String :=
  pathJoin (enhanced_response_error_dir_norm thru_dir) "load_match.s2p"

/-!
Heap model for the frame claim: numpy arrays live in a heap of cells
addressed by natural numbers; the raw input arrays are heap cells owned by
the caller.  Every numpy arithmetic expression allocates a fresh array for
its result; .copy() and np.zeros allocate; the only in-place writes in
methods.py are the two slice assignments into the freshly allocated result
array of the padding branch, modelled by writeSliceH.
-/

/-- A heap of numpy arrays; a reference is an index into the heap. -/
abbrev Heap := List (List Cplx)

/-- Read the array a reference designates. -/
def readH (h : Heap) (r : Nat) : List Cplx := h.getD r []

/-- Allocate a fresh array (numpy arithmetic result, .copy(), np.zeros). -/
def allocH (h : Heap) (v : List Cplx) : Heap × Nat := (h ++ [v], h.length)

/-- In-place slice assignment arr[start : start+len(vals)] = vals. -/
def writeSliceH (h : Heap) (r : Nat) (start : Nat) (vals : List Cplx) : Heap :=
  h.set r ((readH h r).take start ++ vals ++ (readH h r).drop (start + vals.length))

/-- Common heap shape of osm_calibrate_s11 and normalization_calibrate_s21:
read the caller cell, copy it (the .copy() call), compute the correction
value with calib (numpy arithmetic allocates its result fresh), and in the
padding branch allocate np.zeros and write the two slices into it; returns
the final heap and the reference handed back. -/
def calibrateHeapRun (h : Heap) (srcRef : Nat) (calib : List Cplx → Option (List Cplx)) :
    Heap × Option Nat :=
  let med := readH h srcRef
  let h1orig := allocH h med
  match calib med with
  | none => (h1orig.1, none)
  | some v =>
    let h2cal := allocH h1orig.1 v
    if v.length < med.length then
      let h3res := allocH h2cal.1 (List.replicate med.length 0)
      let h4 := writeSliceH h3res.1 h3res.2 0 (readH h3res.1 h2cal.2)
      let h5 := writeSliceH h4 h3res.2 v.length ((readH h4 h1orig.2).drop v.length)
      (h5, some h3res.2)
    else (h2cal.1, some h2cal.2)

/-- osm_calibrate_s11 as a heap program (methods.py lines 22-93): the
length reconciliation and OSM arithmetic applied to the array read from
the caller cell s11Ref, in the heap shape above. -/
def osm_calibrate_s11_heap (h : Heap) (s11Ref : Nat)
    (directivity reflection_tracking source_match : List Cplx) : Heap × Option Nat :=
  calibrateHeapRun h s11Ref (fun s11_med =>
    let cal_points := directivity.length
    let sweep_points := s11_med.length
    let min_points := min cal_points sweep_points
    let s11 := if cal_points ≠ sweep_points then s11_med.take min_points else s11_med
    let d := if cal_points ≠ sweep_points then directivity.take min_points else directivity
    let rt := if cal_points ≠ sweep_points then reflection_tracking.take min_points
      else reflection_tracking
    let sm := if cal_points ≠ sweep_points then source_match.take min_points else source_match
    osm_formula_core d rt sm s11)

/-- normalization_calibrate_s21 as a heap program (methods.py lines
95-154). -/
def normalization_calibrate_s21_heap (h : Heap) (s21Ref : Nat)
    (transmission_tracking : List Cplx) : Heap × Option Nat :=
  calibrateHeapRun h s21Ref (fun s21_med =>
    let cal_points := transmission_tracking.length
    let sweep_points := s21_med.length
    let min_points := min cal_points sweep_points
    let s21 := if cal_points ≠ sweep_points then s21_med.take min_points else s21_med
    let tt := if cal_points ≠ sweep_points then transmission_tracking.take min_points
      else transmission_tracking
    bcastOp (· / ·) s21 tt)

/-- one_port_n_calibrate as a heap program (methods.py lines 156-202): only
reads the caller cells and allocates the two results; no in-place write. -/
def one_port_n_calibrate_heap (h : Heap) (s11Ref s21Ref : Nat)
    (directivity reflection_tracking source_match transmission_tracking : List Cplx) :
    Heap × Option (Nat × Nat) :=
  let s11_med := readH h s11Ref
  let s21_med := readH h s21Ref
  match osm_formula_core directivity reflection_tracking source_match s11_med with
  | none => (h, none)
  | some v1 =>
    match bcastOp (· / ·) s21_med transmission_tracking with
    | none => (h, none)
    | some v2 =>
      let h1 := allocH h v1
      let h2 := allocH h1.1 v2
      (h2.1, some (h1.2, h2.2))

/-- enhanced_response_calibrate as a heap program (methods.py lines
204-253): reads the caller cells, allocates the two results; no in-place
write. -/
def enhanced_response_calibrate_heap (h : Heap) (s11Ref s21Ref : Nat)
    (directivity reflection_tracking source_match transmission_tracking
      load_match : List Cplx) : Heap × Option (Nat × Nat) :=
  let s11_med := readH h s11Ref
  let s21_med := readH h s21Ref
  match enhanced_response_calibrate directivity reflection_tracking source_match
      transmission_tracking load_match s11_med s21_med with
  | none => (h, none)
  | some v =>
    let h1 := allocH h v.1
    let h2 := allocH h1.1 v.2
    (h2.1, some (h1.2, h2.2))

/-!
Helper lemmas about the embedding.
-/

theorem bcastOp_eq_length (f : Cplx → Cplx → Cplx) (a b : List Cplx)
    (h : a.length = b.length) : bcastOp f a b = some (List.zipWith f a b) := by
  simp [bcastOp, h]

theorem getD_zipWith (f : Cplx → Cplx → Cplx) (a b : List Cplx) (i : Nat)
    (ha : i < a.length) (hb : i < b.length) :
    (List.zipWith f a b).getD i 0 = f (a.getD i 0) (b.getD i 0) := by
  have hl : i < (List.zipWith f a b).length := by
    rw [List.length_zipWith]; omega
  rw [List.getD_eq_getElem?_getD, List.getElem?_eq_getElem hl,
    List.getD_eq_getElem?_getD a, List.getElem?_eq_getElem ha,
    List.getD_eq_getElem?_getD b, List.getElem?_eq_getElem hb]
  simp

theorem getD_append_left {α : Type} (l1 l2 : List α) (i : Nat) (dflt : α)
    (h : i < l1.length) : (l1 ++ l2).getD i dflt = l1.getD i dflt := by
  rw [List.getD_eq_getElem?_getD, List.getD_eq_getElem?_getD,
    List.getElem?_append_left h]

theorem getD_append_right {α : Type} (l1 l2 : List α) (i : Nat) (dflt : α)
    (h : l1.length ≤ i) : (l1 ++ l2).getD i dflt = l2.getD (i - l1.length) dflt := by
  rw [List.getD_eq_getElem?_getD, List.getD_eq_getElem?_getD,
    List.getElem?_append_right h]

theorem getD_take {α : Type} (l : List α) (n i : Nat) (dflt : α) (h : i < n) :
    (l.take n).getD i dflt = l.getD i dflt := by
  rw [List.getD_eq_getElem?_getD, List.getD_eq_getElem?_getD,
    List.getElem?_take_of_lt h]

theorem getD_drop {α : Type} (l : List α) (n i : Nat) (dflt : α) :
    (l.drop n).getD i dflt = l.getD (n + i) dflt := by
  rw [List.getD_eq_getElem?_getD, List.getD_eq_getElem?_getD, List.getElem?_drop]

/-- Closed form of the OSM arithmetic chain when all four vectors have the
length of the raw vector. -/
theorem osm_formula_core_eq (d rt sm raw : List Cplx)
    (hd : d.length = raw.length) (hrt : rt.length = raw.length)
    (hsm : sm.length = raw.length) :
    osm_formula_core d rt sm raw =
      some (List.zipWith (· / ·) (List.zipWith (· - ·) raw d)
        (List.zipWith (· - ·) (List.zipWith (· * ·) raw sm)
          (List.zipWith (· - ·) (List.zipWith (· * ·) sm d) rt))) := by
  have h1 := bcastOp_eq_length (· * ·) sm d (by rw [hsm, hd])
  have h2 := bcastOp_eq_length (· - ·) (List.zipWith (· * ·) sm d) rt
    (by rw [List.length_zipWith, hsm, hd, hrt, Nat.min_self])
  have h3 := bcastOp_eq_length (· - ·) raw d hd.symm
  have h4 := bcastOp_eq_length (· * ·) raw sm hsm.symm
  have h5 := bcastOp_eq_length (· - ·) (List.zipWith (· * ·) raw sm)
    (List.zipWith (· - ·) (List.zipWith (· * ·) sm d) rt)
    (by simp [List.length_zipWith, hd, hrt, hsm])
  have h6 := bcastOp_eq_length (· / ·) (List.zipWith (· - ·) raw d)
    (List.zipWith (· - ·) (List.zipWith (· * ·) raw sm)
      (List.zipWith (· - ·) (List.zipWith (· * ·) sm d) rt))
    (by simp [List.length_zipWith, hd, hrt, hsm])
  simp only [osm_formula_core, h1, h2, h3, h4, h5, h6, Option.bind_eq_bind,
    Option.some_bind]

/-!
Claim theorems.
-/

/-- Claim C1: for every raw S11 vector and every OSM error-term set
(directivity, reflection_tracking, source_match) of equal length,
osm_calibrate_s11 returns, element-wise at each frequency index,
corrected = (raw - directivity) / (raw * source_match - delta_e) where
delta_e = source_match * directivity - reflection_tracking. -/
theorem claim_C1 (d rt sm raw : List Cplx)
    (hd : d.length = raw.length) (hrt : rt.length = raw.length)
    (hsm : sm.length = raw.length) :
    ∃ out, (osm_calibrate_s11 d rt sm raw).1 = some out ∧
      out.length = raw.length ∧
      ∀ i, i < raw.length →
        out.getD i 0 =
          (raw.getD i 0 - d.getD i 0) /
            (raw.getD i 0 * sm.getD i 0 -
              (sm.getD i 0 * d.getD i 0 - rt.getD i 0)) := by
  have hnn : ¬ (d.length ≠ raw.length) := by rw [hd]; exact fun hc => hc rfl
  have hcore := osm_formula_core_eq d rt sm raw hd hrt hsm
  have l1 : (List.zipWith (· - ·) raw d).length = raw.length := by
    simp [List.length_zipWith, hd]
  have l3 : (List.zipWith (· * ·) sm d).length = raw.length := by
    simp [List.length_zipWith, hsm, hd]
  have l4 : (List.zipWith (· - ·) (List.zipWith (· * ·) sm d) rt).length = raw.length := by
    simp [List.length_zipWith, hsm, hd, hrt]
  have l2 : (List.zipWith (· * ·) raw sm).length = raw.length := by
    simp [List.length_zipWith, hsm]
  have l5 : (List.zipWith (· - ·) (List.zipWith (· * ·) raw sm)
      (List.zipWith (· - ·) (List.zipWith (· * ·) sm d) rt)).length = raw.length := by
    simp [List.length_zipWith, hsm, hd, hrt]
  have l6 : (List.zipWith (· / ·) (List.zipWith (· - ·) raw d)
      (List.zipWith (· - ·) (List.zipWith (· * ·) raw sm)
        (List.zipWith (· - ·) (List.zipWith (· * ·) sm d) rt))).length = raw.length := by
    simp [List.length_zipWith, hsm, hd, hrt]
  refine ⟨_, ?_, l6, ?_⟩
  · simp only [osm_calibrate_s11, if_neg hnn, hcore]
    rw [if_neg (by rw [l6]; exact Nat.lt_irrefl _)]
  · intro i hi
    rw [getD_zipWith _ _ _ i (by rw [l1]; exact hi) (by rw [l5]; exact hi),
      getD_zipWith _ _ _ i hi (by rw [hd]; exact hi),
      getD_zipWith _ _ _ i (by rw [l2]; exact hi) (by rw [l4]; exact hi),
      getD_zipWith _ _ _ i hi (by rw [hsm]; exact hi),
      getD_zipWith _ _ _ i (by rw [l3]; exact hi) (by rw [hrt]; exact hi),
      getD_zipWith _ _ _ i (by rw [hsm]; exact hi) (by rw [hd]; exact hi)]

/-- Witness for claim C1 at a concrete one-point input. -/
theorem claim_C1_witness :
    ∃ out, (osm_calibrate_s11 [⟨1, 1⟩] [⟨2, 0⟩] [⟨0, 1⟩] [⟨3, 2⟩]).1 = some out ∧
      out.length = ([⟨3, 2⟩] : List Cplx).length ∧
      ∀ i, i < ([⟨3, 2⟩] : List Cplx).length →
        out.getD i 0 =
          (([⟨3, 2⟩] : List Cplx).getD i 0 - ([⟨1, 1⟩] : List Cplx).getD i 0) /
            (([⟨3, 2⟩] : List Cplx).getD i 0 * ([⟨0, 1⟩] : List Cplx).getD i 0 -
              (([⟨0, 1⟩] : List Cplx).getD i 0 * ([⟨1, 1⟩] : List Cplx).getD i 0 -
                ([⟨2, 0⟩] : List Cplx).getD i 0)) :=
  claim_C1 [⟨1, 1⟩] [⟨2, 0⟩] [⟨0, 1⟩] [⟨3, 2⟩] rfl rfl rfl

theorem Cplx.div_one (x : Cplx) : x / 1 = x := by
  ext <;> simp

theorem Cplx.osm_ident_point (x : Cplx) : (x - 0) / (x * 0 - (0 * 0 - 1)) = x := by
  ext <;> simp

theorem zipWith_div_ones (raw : List Cplx) :
    List.zipWith (· / ·) raw (List.replicate raw.length 1) = raw := by
  refine List.ext_getElem (by simp [List.length_zipWith]) ?_
  intro n h1 h2
  simp [Cplx.div_one]

/-- With trivial error terms (directivity 0, reflection tracking 1, source
match 0) the OSM correction chain is the identity on the raw vector. -/
theorem osm_chain_trivial (raw : List Cplx) :
    List.zipWith (· / ·) (List.zipWith (· - ·) raw (List.replicate raw.length 0))
      (List.zipWith (· - ·) (List.zipWith (· * ·) raw (List.replicate raw.length 0))
        (List.zipWith (· - ·)
          (List.zipWith (· * ·) (List.replicate raw.length 0) (List.replicate raw.length 0))
          (List.replicate raw.length 1))) = raw := by
  refine List.ext_getElem (by simp [List.length_zipWith]) ?_
  intro n h1 h2
  simp [Cplx.osm_ident_point]

/-- osm_calibrate_s11 with the trivial error-term point is the identity and
emits no warning. -/
theorem osm_trivial_terms (raw : List Cplx) :
    osm_calibrate_s11 (List.replicate raw.length 0) (List.replicate raw.length 1)
      (List.replicate raw.length 0) raw = (some raw, []) := by
  have hnn : ¬ ((List.replicate raw.length (0 : Cplx)).length ≠ raw.length) := by
    simp
  have hcore := osm_formula_core_eq (List.replicate raw.length 0)
    (List.replicate raw.length 1) (List.replicate raw.length 0) raw
    (by simp) (by simp) (by simp)
  rw [osm_chain_trivial raw] at hcore
  simp only [osm_calibrate_s11, if_neg hnn, hcore]
  rw [if_neg (Nat.lt_irrefl _)]

/-- Claim C7: with directivity 0, source match 0 and reflection tracking 1
at every frequency point, OSM correction is the identity, in particular on
the three-point raw vector 0.5, 0.3+0.1i, 0.1-0.2i. -/
theorem claim_C7 :
    (∀ raw : List Cplx,
      osm_calibrate_s11 (List.replicate raw.length 0) (List.replicate raw.length 1)
        (List.replicate raw.length 0) raw = (some raw, [])) ∧
    osm_calibrate_s11 (List.replicate 3 0) (List.replicate 3 1) (List.replicate 3 0)
        [⟨1/2, 0⟩, ⟨3/10, 1/10⟩, ⟨1/10, -1/5⟩] =
      (some [⟨1/2, 0⟩, ⟨3/10, 1/10⟩, ⟨1/10, -1/5⟩], []) :=
  ⟨osm_trivial_terms, osm_trivial_terms [⟨1/2, 0⟩, ⟨3/10, 1/10⟩, ⟨1/10, -1/5⟩]⟩

/-- Claim C8: normalization is element-wise division by the
transmission-tracking term, and an all-ones tracking vector makes it the
identity. -/
theorem claim_C8 :
    (∀ tt raw : List Cplx, tt.length = raw.length →
      ∃ out, (normalization_calibrate_s21 tt raw).1 = some out ∧
        out.length = raw.length ∧
        ∀ i, i < raw.length → out.getD i 0 = raw.getD i 0 / tt.getD i 0) ∧
    (∀ raw : List Cplx,
      normalization_calibrate_s21 (List.replicate raw.length 1) raw = (some raw, [])) := by
  constructor
  · intro tt raw htt
    have hnn : ¬ (tt.length ≠ raw.length) := by rw [htt]; exact fun hc => hc rfl
    have hdiv := bcastOp_eq_length (· / ·) raw tt htt.symm
    have hlen : (List.zipWith (· / ·) raw tt).length = raw.length := by
      simp [List.length_zipWith, htt]
    refine ⟨_, ?_, hlen, ?_⟩
    · simp only [normalization_calibrate_s21, if_neg hnn, hdiv]
      rw [if_neg (by rw [hlen]; exact Nat.lt_irrefl _)]
    · intro i hi
      exact getD_zipWith _ _ _ i hi (by rw [htt]; exact hi)
  · intro raw
    have hnn : ¬ ((List.replicate raw.length (1 : Cplx)).length ≠ raw.length) := by
      simp
    have hdiv := bcastOp_eq_length (· / ·) raw (List.replicate raw.length 1) (by simp)
    rw [zipWith_div_ones raw] at hdiv
    simp only [normalization_calibrate_s21, if_neg hnn, hdiv]
    rw [if_neg (Nat.lt_irrefl _)]

/-- Witness for claim C8 at concrete two-point inputs. -/
theorem claim_C8_witness :
    (∃ out, (normalization_calibrate_s21 [⟨2, 0⟩, ⟨0, 1⟩] [⟨4, 2⟩, ⟨1, 1⟩]).1 = some out ∧
      out.length = ([⟨4, 2⟩, ⟨1, 1⟩] : List Cplx).length ∧
      ∀ i, i < ([⟨4, 2⟩, ⟨1, 1⟩] : List Cplx).length →
        out.getD i 0 = ([⟨4, 2⟩, ⟨1, 1⟩] : List Cplx).getD i 0 /
          ([⟨2, 0⟩, ⟨0, 1⟩] : List Cplx).getD i 0) ∧
    normalization_calibrate_s21 (List.replicate 2 1) [⟨5, 7⟩, ⟨2, 3⟩] =
      (some [⟨5, 7⟩, ⟨2, 3⟩], []) :=
  ⟨claim_C8.1 [⟨2, 0⟩, ⟨0, 1⟩] [⟨4, 2⟩, ⟨1, 1⟩] rfl, claim_C8.2 [⟨5, 7⟩, ⟨2, 3⟩]⟩

theorem bcastOp_singleton (f : Cplx → Cplx → Cplx) (x y : Cplx) :
    bcastOp f [x] [y] = some [f x y] := by
  simp [bcastOp]

/-- Closed form of enhanced_response_calibrate when the error terms match
the raw S11 length and the raw S21 matches the raw S11 length. -/
theorem enhanced_response_calibrate_eq (d rt sm tt lm raw11 raw21 : List Cplx)
    (hd : d.length = raw11.length) (hrt : rt.length = raw11.length)
    (hsm : sm.length = raw11.length) (htt : tt.length = raw21.length)
    (h21 : raw21.length = raw11.length) :
    enhanced_response_calibrate d rt sm tt lm raw11 raw21 =
      some (List.zipWith (· / ·) (List.zipWith (· - ·) raw11 d)
          (List.zipWith (· - ·) (List.zipWith (· * ·) raw11 sm)
            (List.zipWith (· - ·) (List.zipWith (· * ·) sm d) rt)),
        List.zipWith (· * ·) (List.zipWith (· / ·) raw21 tt)
          (List.zipWith (· / ·) rt
            (List.zipWith (· - ·) (List.zipWith (· * ·) sm raw11)
              (List.zipWith (· - ·) (List.zipWith (· * ·) sm d) rt)))) := by
  have h1 := bcastOp_eq_length (· * ·) sm d (by rw [hsm, hd])
  have h2 := bcastOp_eq_length (· - ·) (List.zipWith (· * ·) sm d) rt
    (by simp [List.length_zipWith, hsm, hd, hrt])
  have h3 := bcastOp_eq_length (· - ·) raw11 d hd.symm
  have h4 := bcastOp_eq_length (· * ·) raw11 sm hsm.symm
  have h5 := bcastOp_eq_length (· - ·) (List.zipWith (· * ·) raw11 sm)
    (List.zipWith (· - ·) (List.zipWith (· * ·) sm d) rt)
    (by simp [List.length_zipWith, hd, hrt, hsm])
  have h6 := bcastOp_eq_length (· / ·) (List.zipWith (· - ·) raw11 d)
    (List.zipWith (· - ·) (List.zipWith (· * ·) raw11 sm)
      (List.zipWith (· - ·) (List.zipWith (· * ·) sm d) rt))
    (by simp [List.length_zipWith, hd, hrt, hsm])
  have h7 := bcastOp_eq_length (· / ·) raw21 tt htt.symm
  have h8 := bcastOp_eq_length (· * ·) sm raw11 hsm
  have h9 := bcastOp_eq_length (· - ·) (List.zipWith (· * ·) sm raw11)
    (List.zipWith (· - ·) (List.zipWith (· * ·) sm d) rt)
    (by simp [List.length_zipWith, hd, hrt, hsm])
  have h10 := bcastOp_eq_length (· / ·) rt
    (List.zipWith (· - ·) (List.zipWith (· * ·) sm raw11)
      (List.zipWith (· - ·) (List.zipWith (· * ·) sm d) rt))
    (by simp [List.length_zipWith, hd, hrt, hsm])
  have h11 := bcastOp_eq_length (· * ·) (List.zipWith (· / ·) raw21 tt)
    (List.zipWith (· / ·) rt
      (List.zipWith (· - ·) (List.zipWith (· * ·) sm raw11)
        (List.zipWith (· - ·) (List.zipWith (· * ·) sm d) rt)))
    (by simp [List.length_zipWith, hd, hrt, hsm, htt, h21])
  simp only [enhanced_response_calibrate, h1, h2, h3, h4, h5, h6, h7, h8, h9, h10, h11,
    Option.bind_eq_bind, Option.some_bind]
  rfl

/-- Claim C2: enhanced_response_calibrate computes corrected_s21 =
(raw_s21 / transmission_tracking) * (reflection_tracking /
(source_match * raw_s11 - delta_e)) element-wise with the raw S11 in the
second factor denominator, and on a concrete input this differs from the
variant that substitutes the corrected S11 there. -/
theorem claim_C2 :
    (∀ d rt sm tt lm raw11 raw21 : List Cplx,
      d.length = raw11.length → rt.length = raw11.length → sm.length = raw11.length →
      tt.length = raw21.length → raw21.length = raw11.length →
      ∃ p, enhanced_response_calibrate d rt sm tt lm raw11 raw21 = some p ∧
        p.2.length = raw21.length ∧
        ∀ i, i < raw21.length →
          p.2.getD i 0 =
            (raw21.getD i 0 / tt.getD i 0) *
              (rt.getD i 0 / (sm.getD i 0 * raw11.getD i 0 -
                (sm.getD i 0 * d.getD i 0 - rt.getD i 0)))) ∧
    Option.map Prod.snd
        (enhanced_response_calibrate [⟨0, 0⟩] [⟨1, 0⟩] [⟨1, 0⟩] [⟨1, 0⟩] [⟨0, 0⟩]
          [⟨1, 0⟩] [⟨1, 0⟩]) ≠
      enhanced_response_s21_variant [⟨0, 0⟩] [⟨1, 0⟩] [⟨1, 0⟩] [⟨1, 0⟩] [⟨1, 0⟩] [⟨1, 0⟩] := by
  constructor
  · intro d rt sm tt lm raw11 raw21 hd hrt hsm htt h21
    have heq := enhanced_response_calibrate_eq d rt sm tt lm raw11 raw21 hd hrt hsm htt h21
    refine ⟨_, heq, ?_, ?_⟩
    · simp [List.length_zipWith, htt, h21, hrt, hsm, hd]
    · intro i hi
      have hi11 : i < raw11.length := by omega
      have b1 : i < (List.zipWith (· / ·) raw21 tt).length := by
        simp only [List.length_zipWith, htt, Nat.min_self]; exact hi
      have b2 : i < (List.zipWith (· / ·) rt
          (List.zipWith (· - ·) (List.zipWith (· * ·) sm raw11)
            (List.zipWith (· - ·) (List.zipWith (· * ·) sm d) rt))).length := by
        simp only [List.length_zipWith, hd, hrt, hsm, Nat.min_self]; exact hi11
      have b3 : i < (List.zipWith (· - ·) (List.zipWith (· * ·) sm raw11)
          (List.zipWith (· - ·) (List.zipWith (· * ·) sm d) rt)).length := by
        simp only [List.length_zipWith, hd, hrt, hsm, Nat.min_self]; exact hi11
      have b4 : i < (List.zipWith (· * ·) sm raw11).length := by
        simp only [List.length_zipWith, hsm, Nat.min_self]; exact hi11
      have b5 : i < (List.zipWith (· - ·) (List.zipWith (· * ·) sm d) rt).length := by
        simp only [List.length_zipWith, hd, hrt, hsm, Nat.min_self]; exact hi11
      have b6 : i < (List.zipWith (· * ·) sm d).length := by
        simp only [List.length_zipWith, hd, hsm, Nat.min_self]; exact hi11
      rw [getD_zipWith _ _ _ i b1 b2,
        getD_zipWith _ _ _ i hi (by rw [htt]; exact hi),
        getD_zipWith _ _ _ i (by rw [hrt]; exact hi11) b3,
        getD_zipWith _ _ _ i b4 b5,
        getD_zipWith _ _ _ i (by rw [hsm]; exact hi11) hi11,
        getD_zipWith _ _ _ i b6 (by rw [hrt]; exact hi11),
        getD_zipWith _ _ _ i (by rw [hsm]; exact hi11) (by rw [hd]; exact hi11)]
  · have h1 : (⟨1, 0⟩ : Cplx) * ⟨0, 0⟩ = ⟨0, 0⟩ := by ext <;> norm_num
    have h2 : (⟨0, 0⟩ : Cplx) - ⟨1, 0⟩ = ⟨-1, 0⟩ := by ext <;> norm_num
    have h3 : (⟨1, 0⟩ : Cplx) - ⟨0, 0⟩ = ⟨1, 0⟩ := by ext <;> norm_num
    have h4 : (⟨1, 0⟩ : Cplx) * ⟨1, 0⟩ = ⟨1, 0⟩ := by ext <;> norm_num
    have h5 : (⟨1, 0⟩ : Cplx) - ⟨-1, 0⟩ = ⟨2, 0⟩ := by ext <;> norm_num
    have h6 : (⟨1, 0⟩ : Cplx) / ⟨2, 0⟩ = ⟨1/2, 0⟩ := by ext <;> norm_num
    have h7 : (⟨1, 0⟩ : Cplx) / ⟨1, 0⟩ = ⟨1, 0⟩ := by ext <;> norm_num
    have h8 : (⟨1, 0⟩ : Cplx) * ⟨1/2, 0⟩ = ⟨1/2, 0⟩ := by ext <;> norm_num
    have h9 : (⟨1/2, 0⟩ : Cplx) - ⟨-1, 0⟩ = ⟨3/2, 0⟩ := by ext <;> norm_num
    have h10 : (⟨1, 0⟩ : Cplx) / ⟨3/2, 0⟩ = ⟨2/3, 0⟩ := by ext <;> norm_num
    have h11 : (⟨1, 0⟩ : Cplx) * ⟨2/3, 0⟩ = ⟨2/3, 0⟩ := by ext <;> norm_num
    have hcode : enhanced_response_calibrate [⟨0, 0⟩] [⟨1, 0⟩] [⟨1, 0⟩] [⟨1, 0⟩] [⟨0, 0⟩]
        [⟨1, 0⟩] [⟨1, 0⟩] = some ([⟨1/2, 0⟩], [⟨1/2, 0⟩]) := by
      simp only [enhanced_response_calibrate, bcastOp_singleton, h1, h2, h3, h4, h5, h6,
        h7, h8, Option.bind_eq_bind, Option.some_bind]
      rfl
    have hvar : enhanced_response_s21_variant [⟨0, 0⟩] [⟨1, 0⟩] [⟨1, 0⟩] [⟨1, 0⟩]
        [⟨1, 0⟩] [⟨1, 0⟩] = some [⟨2/3, 0⟩] := by
      simp only [enhanced_response_s21_variant, bcastOp_singleton, h1, h2, h3, h4, h5, h6,
        h7, h8, h9, h10, h11, Option.bind_eq_bind, Option.some_bind]
    rw [hcode, hvar]
    simp only [Option.map_some, ne_eq, Option.some.injEq, List.cons.injEq, and_true,
      Cplx.mk.injEq, not_and]
    intro hc
    norm_num at hc

/-- Witness for claim C2 at a concrete one-point input. -/
theorem claim_C2_witness :
    ∃ p, enhanced_response_calibrate [⟨1, 1⟩] [⟨2, 0⟩] [⟨0, 1⟩] [⟨1, 2⟩] [⟨5, 5⟩]
        [⟨3, 2⟩] [⟨4, 1⟩] = some p ∧
      p.2.length = ([⟨4, 1⟩] : List Cplx).length ∧
      ∀ i, i < ([⟨4, 1⟩] : List Cplx).length →
        p.2.getD i 0 =
          (([⟨4, 1⟩] : List Cplx).getD i 0 / ([⟨1, 2⟩] : List Cplx).getD i 0) *
            (([⟨2, 0⟩] : List Cplx).getD i 0 /
              (([⟨0, 1⟩] : List Cplx).getD i 0 * ([⟨3, 2⟩] : List Cplx).getD i 0 -
                (([⟨0, 1⟩] : List Cplx).getD i 0 * ([⟨1, 1⟩] : List Cplx).getD i 0 -
                  ([⟨2, 0⟩] : List Cplx).getD i 0))) :=
  claim_C2.1 [⟨1, 1⟩] [⟨2, 0⟩] [⟨0, 1⟩] [⟨1, 2⟩] [⟨5, 5⟩] [⟨3, 2⟩] [⟨4, 1⟩]
    rfl rfl rfl rfl rfl

/-- Claim C4: with error terms shorter than the raw vector,
osm_calibrate_s11 and normalization_calibrate_s21 return a vector of the
original raw length whose prefix holds the corrected values and whose tail
holds the original raw values unchanged. -/
theorem claim_C4 (d rt sm raw11 tt raw21 : List Cplx)
    (hrt : rt.length = d.length) (hsm : sm.length = d.length)
    (hlt : d.length < raw11.length) (hlt2 : tt.length < raw21.length) :
    (∃ out, (osm_calibrate_s11 d rt sm raw11).1 = some out ∧
      out.length = raw11.length ∧
      (∀ i, i < d.length →
        out.getD i 0 =
          (raw11.getD i 0 - d.getD i 0) /
            (raw11.getD i 0 * sm.getD i 0 -
              (sm.getD i 0 * d.getD i 0 - rt.getD i 0))) ∧
      (∀ i, d.length ≤ i → i < raw11.length → out.getD i 0 = raw11.getD i 0)) ∧
    (∃ out, (normalization_calibrate_s21 tt raw21).1 = some out ∧
      out.length = raw21.length ∧
      (∀ i, i < tt.length → out.getD i 0 = raw21.getD i 0 / tt.getD i 0) ∧
      (∀ i, tt.length ≤ i → i < raw21.length → out.getD i 0 = raw21.getD i 0)) := by
  constructor
  · have hne : d.length ≠ raw11.length := Nat.ne_of_lt hlt
    have hmin : min d.length raw11.length = d.length := Nat.min_eq_left (Nat.le_of_lt hlt)
    have hdt : d.take d.length = d := List.take_length d
    have hrtt : rt.take d.length = rt := by rw [← hrt]; exact List.take_length rt
    have hsmt : sm.take d.length = sm := by rw [← hsm]; exact List.take_length sm
    have htl : (raw11.take d.length).length = d.length := by
      simp [List.length_take]; omega
    have hcore := osm_formula_core_eq d rt sm (raw11.take d.length)
      (by rw [htl]) (by rw [htl, hrt]) (by rw [htl, hsm])
    have hL : (List.zipWith (· / ·) (List.zipWith (· - ·) (raw11.take d.length) d)
        (List.zipWith (· - ·) (List.zipWith (· * ·) (raw11.take d.length) sm)
          (List.zipWith (· - ·) (List.zipWith (· * ·) sm d) rt))).length = d.length := by
      simp [List.length_zipWith, List.length_take, hrt, hsm]; omega
    have hfst : (osm_calibrate_s11 d rt sm raw11).1 =
        some ((List.zipWith (· / ·) (List.zipWith (· - ·) (raw11.take d.length) d)
          (List.zipWith (· - ·) (List.zipWith (· * ·) (raw11.take d.length) sm)
            (List.zipWith (· - ·) (List.zipWith (· * ·) sm d) rt))) ++
          raw11.drop d.length) := by
      simp only [osm_calibrate_s11, if_pos hne, hmin, hdt, hrtt, hsmt, hcore]
      rw [if_pos (by rw [hL]; exact hlt), hL]
    refine ⟨_, hfst, ?_, ?_, ?_⟩
    · simp only [List.length_append, List.length_drop, hL]
      omega
    · intro i hi
      rw [getD_append_left _ _ _ _ (by rw [hL]; exact hi)]
      have b1 : i < (List.zipWith (· - ·) (raw11.take d.length) d).length := by
        simp only [List.length_zipWith, htl, Nat.min_self]; exact hi
      have b2 : i < (List.zipWith (· - ·) (List.zipWith (· * ·) (raw11.take d.length) sm)
          (List.zipWith (· - ·) (List.zipWith (· * ·) sm d) rt)).length := by
        simp only [List.length_zipWith, htl, hrt, hsm, Nat.min_self]; exact hi
      have b3 : i < (List.zipWith (· * ·) (raw11.take d.length) sm).length := by
        simp only [List.length_zipWith, htl, hsm, Nat.min_self]; exact hi
      have b4 : i < (List.zipWith (· - ·) (List.zipWith (· * ·) sm d) rt).length := by
        simp only [List.length_zipWith, hrt, hsm, Nat.min_self]; exact hi
      have b5 : i < (List.zipWith (· * ·) sm d).length := by
        simp only [List.length_zipWith, hrt, hsm, Nat.min_self]; exact hi
      rw [getD_zipWith _ _ _ i b1 b2,
        getD_zipWith _ _ _ i (by rw [htl]; exact hi) hi,
        getD_zipWith _ _ _ i b3 b4,
        getD_zipWith _ _ _ i (by rw [htl]; exact hi) (by rw [hsm]; exact hi),
        getD_zipWith _ _ _ i b5 (by rw [hrt]; exact hi),
        getD_zipWith _ _ _ i (by rw [hsm]; exact hi) hi,
        getD_take _ _ _ _ hi]
    · intro i hge hiLt
      rw [getD_append_right _ _ _ _ (by rw [hL]; exact hge), hL, getD_drop]
      have : d.length + (i - d.length) = i := by omega
      rw [this]
  · have hne : tt.length ≠ raw21.length := Nat.ne_of_lt hlt2
    have hmin : min tt.length raw21.length = tt.length := Nat.min_eq_left (Nat.le_of_lt hlt2)
    have httt : tt.take tt.length = tt := List.take_length tt
    have htl : (raw21.take tt.length).length = tt.length := by
      simp [List.length_take]; omega
    have hdiv := bcastOp_eq_length (· / ·) (raw21.take tt.length) tt (by rw [htl])
    have hL : (List.zipWith (· / ·) (raw21.take tt.length) tt).length = tt.length := by
      simp [List.length_zipWith, List.length_take]; omega
    have hfst : (normalization_calibrate_s21 tt raw21).1 =
        some ((List.zipWith (· / ·) (raw21.take tt.length) tt) ++
          raw21.drop tt.length) := by
      simp only [normalization_calibrate_s21, if_pos hne, hmin, httt, hdiv]
      rw [if_pos (by rw [hL]; exact hlt2), hL]
    refine ⟨_, hfst, ?_, ?_, ?_⟩
    · simp only [List.length_append, List.length_drop, hL]
      omega
    · intro i hi
      rw [getD_append_left _ _ _ _ (by rw [hL]; exact hi),
        getD_zipWith _ _ _ i (by rw [htl]; exact hi) hi,
        getD_take _ _ _ _ hi]
    · intro i hge hiLt
      rw [getD_append_right _ _ _ _ (by rw [hL]; exact hge), hL, getD_drop]
      have : tt.length + (i - tt.length) = i := by omega
      rw [this]

/-- Witness for claim C4: one-point error terms against two-point raw
vectors. -/
theorem claim_C4_witness :
    ((∃ out, (osm_calibrate_s11 [⟨0, 0⟩] [⟨1, 0⟩] [⟨0, 0⟩] [⟨1, 0⟩, ⟨2, 0⟩]).1 = some out ∧
      out.length = ([⟨1, 0⟩, ⟨2, 0⟩] : List Cplx).length ∧
      (∀ i, i < ([⟨0, 0⟩] : List Cplx).length →
        out.getD i 0 =
          (([⟨1, 0⟩, ⟨2, 0⟩] : List Cplx).getD i 0 - ([⟨0, 0⟩] : List Cplx).getD i 0) /
            (([⟨1, 0⟩, ⟨2, 0⟩] : List Cplx).getD i 0 * ([⟨0, 0⟩] : List Cplx).getD i 0 -
              (([⟨0, 0⟩] : List Cplx).getD i 0 * ([⟨0, 0⟩] : List Cplx).getD i 0 -
                ([⟨1, 0⟩] : List Cplx).getD i 0))) ∧
      (∀ i, ([⟨0, 0⟩] : List Cplx).length ≤ i → i < ([⟨1, 0⟩, ⟨2, 0⟩] : List Cplx).length →
        out.getD i 0 = ([⟨1, 0⟩, ⟨2, 0⟩] : List Cplx).getD i 0)) ∧
    (∃ out, (normalization_calibrate_s21 [⟨1, 0⟩] [⟨3, 0⟩, ⟨4, 0⟩]).1 = some out ∧
      out.length = ([⟨3, 0⟩, ⟨4, 0⟩] : List Cplx).length ∧
      (∀ i, i < ([⟨1, 0⟩] : List Cplx).length →
        out.getD i 0 = ([⟨3, 0⟩, ⟨4, 0⟩] : List Cplx).getD i 0 /
          ([⟨1, 0⟩] : List Cplx).getD i 0) ∧
      (∀ i, ([⟨1, 0⟩] : List Cplx).length ≤ i → i < ([⟨3, 0⟩, ⟨4, 0⟩] : List Cplx).length →
        out.getD i 0 = ([⟨3, 0⟩, ⟨4, 0⟩] : List Cplx).getD i 0))) :=
  claim_C4 [⟨0, 0⟩] [⟨1, 0⟩] [⟨0, 0⟩] [⟨1, 0⟩, ⟨2, 0⟩] [⟨1, 0⟩] [⟨3, 0⟩, ⟨4, 0⟩]
    rfl rfl (by decide) (by decide)

/-- osm_calibrate_s11 never fails for a consistent error-term set: whatever
the point-count relation between terms and sweep, the reconciliation yields
a corrected vector of the raw length. -/
theorem osm_total (d rt sm raw : List Cplx)
    (hrt : rt.length = d.length) (hsm : sm.length = d.length) :
    ∃ out, (osm_calibrate_s11 d rt sm raw).1 = some out ∧ out.length = raw.length := by
  by_cases heq : d.length = raw.length
  · have hnn : ¬ (d.length ≠ raw.length) := fun hc => hc heq
    have hcore := osm_formula_core_eq d rt sm raw heq (by omega) (by omega)
    have l6 : (List.zipWith (· / ·) (List.zipWith (· - ·) raw d)
        (List.zipWith (· - ·) (List.zipWith (· * ·) raw sm)
          (List.zipWith (· - ·) (List.zipWith (· * ·) sm d) rt))).length = raw.length := by
      simp [List.length_zipWith]; omega
    have hfst : (osm_calibrate_s11 d rt sm raw).1 =
        some (List.zipWith (· / ·) (List.zipWith (· - ·) raw d)
          (List.zipWith (· - ·) (List.zipWith (· * ·) raw sm)
            (List.zipWith (· - ·) (List.zipWith (· * ·) sm d) rt))) := by
      simp only [osm_calibrate_s11, if_neg hnn, hcore]
      rw [if_neg (by rw [l6]; exact Nat.lt_irrefl _)]
    exact ⟨_, hfst, l6⟩
  · rcases Nat.lt_or_ge d.length raw.length with hlt | hge
    · have hne : d.length ≠ raw.length := heq
      have hmin : min d.length raw.length = d.length := Nat.min_eq_left (Nat.le_of_lt hlt)
      have hdt : d.take d.length = d := List.take_length d
      have hrtt : rt.take d.length = rt := by rw [← hrt]; exact List.take_length rt
      have hsmt : sm.take d.length = sm := by rw [← hsm]; exact List.take_length sm
      have htl : (raw.take d.length).length = d.length := by
        simp [List.length_take]; omega
      have hcore := osm_formula_core_eq d rt sm (raw.take d.length)
        (by rw [htl]) (by rw [htl, hrt]) (by rw [htl, hsm])
      have hL : (List.zipWith (· / ·) (List.zipWith (· - ·) (raw.take d.length) d)
          (List.zipWith (· - ·) (List.zipWith (· * ·) (raw.take d.length) sm)
            (List.zipWith (· - ·) (List.zipWith (· * ·) sm d) rt))).length = d.length := by
        simp [List.length_zipWith, List.length_take, hrt, hsm]; omega
      have hfst : (osm_calibrate_s11 d rt sm raw).1 =
          some ((List.zipWith (· / ·) (List.zipWith (· - ·) (raw.take d.length) d)
            (List.zipWith (· - ·) (List.zipWith (· * ·) (raw.take d.length) sm)
              (List.zipWith (· - ·) (List.zipWith (· * ·) sm d) rt))) ++
            raw.drop d.length) := by
        simp only [osm_calibrate_s11, if_pos hne, hmin, hdt, hrtt, hsmt, hcore]
        rw [if_pos (by rw [hL]; exact hlt), hL]
      refine ⟨_, hfst, ?_⟩
      simp only [List.length_append, List.length_drop, hL]
      omega
    · have hgt : raw.length < d.length := by omega
      have hne : d.length ≠ raw.length := heq
      have hmin : min d.length raw.length = raw.length :=
        Nat.min_eq_right (Nat.le_of_lt hgt)
      have htd : (d.take raw.length).length = raw.length := by
        simp [List.length_take]; omega
      have htr : (rt.take raw.length).length = raw.length := by
        simp [List.length_take]; omega
      have hts : (sm.take raw.length).length = raw.length := by
        simp [List.length_take]; omega
      have hcore := osm_formula_core_eq (d.take raw.length) (rt.take raw.length)
        (sm.take raw.length) raw htd htr hts
      have hL : (List.zipWith (· / ·) (List.zipWith (· - ·) raw (d.take raw.length))
          (List.zipWith (· - ·) (List.zipWith (· * ·) raw (sm.take raw.length))
            (List.zipWith (· - ·)
              (List.zipWith (· * ·) (sm.take raw.length) (d.take raw.length))
              (rt.take raw.length)))).length = raw.length := by
        simp [List.length_zipWith, List.length_take]; omega
      have hfst : (osm_calibrate_s11 d rt sm raw).1 =
          some (List.zipWith (· / ·) (List.zipWith (· - ·) raw (d.take raw.length))
            (List.zipWith (· - ·) (List.zipWith (· * ·) raw (sm.take raw.length))
              (List.zipWith (· - ·)
                (List.zipWith (· * ·) (sm.take raw.length) (d.take raw.length))
                (rt.take raw.length)))) := by
        simp only [osm_calibrate_s11, if_pos hne, hmin, List.take_length, hcore]
        rw [if_neg (by rw [hL]; exact Nat.lt_irrefl _)]
      exact ⟨_, hfst, hL⟩

/-- normalization_calibrate_s21 never fails: the reconciliation yields a
corrected vector of the raw length in every case. -/
theorem normalization_total (tt raw : List Cplx) :
    ∃ out, (normalization_calibrate_s21 tt raw).1 = some out ∧
      out.length = raw.length := by
  by_cases heq : tt.length = raw.length
  · have hnn : ¬ (tt.length ≠ raw.length) := fun hc => hc heq
    have hdiv := bcastOp_eq_length (· / ·) raw tt heq.symm
    have hL : (List.zipWith (· / ·) raw tt).length = raw.length := by
      simp [List.length_zipWith]; omega
    have hfst : (normalization_calibrate_s21 tt raw).1 =
        some (List.zipWith (· / ·) raw tt) := by
      simp only [normalization_calibrate_s21, if_neg hnn, hdiv]
      rw [if_neg (by rw [hL]; exact Nat.lt_irrefl _)]
    exact ⟨_, hfst, hL⟩
  · rcases Nat.lt_or_ge tt.length raw.length with hlt | hge
    · have hne : tt.length ≠ raw.length := heq
      have hmin : min tt.length raw.length = tt.length := Nat.min_eq_left (Nat.le_of_lt hlt)
      have httt : tt.take tt.length = tt := List.take_length tt
      have htl : (raw.take tt.length).length = tt.length := by
        simp [List.length_take]; omega
      have hdiv := bcastOp_eq_length (· / ·) (raw.take tt.length) tt (by rw [htl])
      have hL : (List.zipWith (· / ·) (raw.take tt.length) tt).length = tt.length := by
        simp [List.length_zipWith, List.length_take]; omega
      have hfst : (normalization_calibrate_s21 tt raw).1 =
          some ((List.zipWith (· / ·) (raw.take tt.length) tt) ++
            raw.drop tt.length) := by
        simp only [normalization_calibrate_s21, if_pos hne, hmin, httt, hdiv]
        rw [if_pos (by rw [hL]; exact hlt), hL]
      refine ⟨_, hfst, ?_⟩
      simp only [List.length_append, List.length_drop, hL]
      omega
    · have hgt : raw.length < tt.length := by omega
      have hne : tt.length ≠ raw.length := heq
      have hmin : min tt.length raw.length = raw.length :=
        Nat.min_eq_right (Nat.le_of_lt hgt)
      have htt2 : (tt.take raw.length).length = raw.length := by
        simp [List.length_take]; omega
      have hdiv := bcastOp_eq_length (· / ·) raw (tt.take raw.length) (by rw [htt2])
      have hL : (List.zipWith (· / ·) raw (tt.take raw.length)).length = raw.length := by
        simp [List.length_zipWith, List.length_take]; omega
      have hfst : (normalization_calibrate_s21 tt raw).1 =
          some (List.zipWith (· / ·) raw (tt.take raw.length)) := by
        simp only [normalization_calibrate_s21, if_pos hne, hmin, List.take_length, hdiv]
        rw [if_neg (by rw [hL]; exact Nat.lt_irrefl _)]
      exact ⟨_, hfst, hL⟩

/-- On a point-count mismatch osm_calibrate_s11 emits warning log
messages. -/
theorem osm_warns (d rt sm raw : List Cplx) (hne : d.length ≠ raw.length) :
    (osm_calibrate_s11 d rt sm raw).2 ≠ [] := by
  simp only [osm_calibrate_s11, if_pos hne]
  split
  · simp
  · split <;> simp

/-- On a point-count mismatch normalization_calibrate_s21 emits warning log
messages. -/
theorem normalization_warns (tt raw : List Cplx) (hne : tt.length ≠ raw.length) :
    (normalization_calibrate_s21 tt raw).2 ≠ [] := by
  simp only [normalization_calibrate_s21, if_pos hne]
  split
  · simp
  · split <;> simp

/-- Counterexample to claim C3 as stated: one_port_n_calibrate and
enhanced_response_calibrate run no length reconciliation, so two-point
error terms against three-point raw vectors make a numpy element-wise
operation raise (modelled as none) instead of a warning log. -/
theorem claim_C3_counterexample :
    one_port_n_calibrate [⟨0, 0⟩, ⟨0, 0⟩] [⟨1, 0⟩, ⟨1, 0⟩] [⟨0, 0⟩, ⟨0, 0⟩]
        [⟨1, 0⟩, ⟨1, 0⟩] [⟨1, 0⟩, ⟨2, 0⟩, ⟨3, 0⟩] [⟨1, 0⟩, ⟨2, 0⟩, ⟨3, 0⟩] = none ∧
    enhanced_response_calibrate [⟨0, 0⟩, ⟨0, 0⟩] [⟨1, 0⟩, ⟨1, 0⟩] [⟨0, 0⟩, ⟨0, 0⟩]
        [⟨1, 0⟩, ⟨1, 0⟩] [⟨0, 0⟩, ⟨0, 0⟩] [⟨1, 0⟩, ⟨2, 0⟩, ⟨3, 0⟩]
        [⟨1, 0⟩, ⟨2, 0⟩, ⟨3, 0⟩] = none :=
  ⟨rfl, rfl⟩

/-- Claim C3 (amended): the length reconciliation runs before the
correction in osm_calibrate_s11 and normalization_calibrate_s21 only;
there a point-count mismatch is surfaced as warning log messages and the
correction still returns a full-length vector, while one_port_n_calibrate
and enhanced_response_calibrate apply the correction directly and a
mismatch makes the element-wise arithmetic raise. -/
theorem claim_C3_amended (d rt sm tt raw11 raw21 : List Cplx)
    (hrt : rt.length = d.length) (hsm : sm.length = d.length) :
    ((∃ out, (osm_calibrate_s11 d rt sm raw11).1 = some out ∧
        out.length = raw11.length) ∧
      (d.length ≠ raw11.length → (osm_calibrate_s11 d rt sm raw11).2 ≠ [])) ∧
    ((∃ out, (normalization_calibrate_s21 tt raw21).1 = some out ∧
        out.length = raw21.length) ∧
      (tt.length ≠ raw21.length → (normalization_calibrate_s21 tt raw21).2 ≠ [])) :=
  ⟨⟨osm_total d rt sm raw11 hrt hsm, fun hne => osm_warns d rt sm raw11 hne⟩,
   ⟨normalization_total tt raw21, fun hne => normalization_warns tt raw21 hne⟩⟩

/-- Witness for the amended claim C3 at a concrete mismatched input. -/
theorem claim_C3_amended_witness :
    ((∃ out, (osm_calibrate_s11 [⟨0, 0⟩] [⟨1, 0⟩] [⟨0, 0⟩] [⟨1, 0⟩, ⟨2, 0⟩]).1 = some out ∧
        out.length = ([⟨1, 0⟩, ⟨2, 0⟩] : List Cplx).length) ∧
      (([⟨0, 0⟩] : List Cplx).length ≠ ([⟨1, 0⟩, ⟨2, 0⟩] : List Cplx).length →
        (osm_calibrate_s11 [⟨0, 0⟩] [⟨1, 0⟩] [⟨0, 0⟩] [⟨1, 0⟩, ⟨2, 0⟩]).2 ≠ [])) ∧
    ((∃ out, (normalization_calibrate_s21 [⟨1, 0⟩] [⟨3, 0⟩, ⟨4, 0⟩]).1 = some out ∧
        out.length = ([⟨3, 0⟩, ⟨4, 0⟩] : List Cplx).length) ∧
      (([⟨1, 0⟩] : List Cplx).length ≠ ([⟨3, 0⟩, ⟨4, 0⟩] : List Cplx).length →
        (normalization_calibrate_s21 [⟨1, 0⟩] [⟨3, 0⟩, ⟨4, 0⟩]).2 ≠ [])) :=
  claim_C3_amended [⟨0, 0⟩] [⟨1, 0⟩] [⟨0, 0⟩] [⟨1, 0⟩] [⟨1, 0⟩, ⟨2, 0⟩] [⟨3, 0⟩, ⟨4, 0⟩]
    rfl rfl

/-- Counterexample to claim C6 as stated: for an unrecognized method name
the dispatch does return the raw vectors unchanged, but its emitted log
list is empty - no configuration warning is logged in that branch. -/
theorem claim_C6_counterexample :
    run_sweep_dispatch "Bogus" [⟨1, 0⟩] [⟨1, 0⟩] [⟨1, 0⟩] [⟨1, 0⟩] [⟨1, 0⟩]
        [⟨1, 0⟩] [⟨1, 0⟩] [⟨1, 0⟩] [⟨1, 0⟩] [⟨5, 0⟩, ⟨6, 0⟩] [⟨7, 0⟩, ⟨8, 0⟩] =
      (some ([⟨5, 0⟩, ⟨6, 0⟩], [⟨7, 0⟩, ⟨8, 0⟩]), []) := rfl

/-- Claim C6 (amended): for every method name other than the four
recognized ones (the persisted default standing for method None included),
the dispatch returns the raw S11 and S21 exactly unchanged and raises no
error; no warning is logged in this branch. -/
theorem claim_C6_amended (m : String)
    (osm_d osm_rt osm_sm thru_tt er_d er_rt er_sm er_tt er_lm s11 s21 : List Cplx)
    (h1 : m ≠ "OSM (Open - Short - Match)") (h2 : m ≠ "Normalization")
    (h3 : m ≠ "1-Port+N") (h4 : m ≠ "Enhanced-Response") :
    run_sweep_dispatch m osm_d osm_rt osm_sm thru_tt er_d er_rt er_sm er_tt er_lm
        s11 s21 = (some (s11, s21), []) := by
  simp only [run_sweep_dispatch, if_neg h1, if_neg h2, if_neg h3, if_neg h4]

/-- Witness for the amended claim C6 at the persisted default method
string. -/
theorem claim_C6_amended_witness :
    run_sweep_dispatch "---" [⟨1, 0⟩] [⟨1, 0⟩] [⟨1, 0⟩] [⟨1, 0⟩] [⟨1, 0⟩]
        [⟨1, 0⟩] [⟨1, 0⟩] [⟨1, 0⟩] [⟨1, 0⟩] [⟨5, 0⟩] [⟨6, 0⟩] =
      (some ([⟨5, 0⟩], [⟨6, 0⟩]), []) :=
  claim_C6_amended "---" [⟨1, 0⟩] [⟨1, 0⟩] [⟨1, 0⟩] [⟨1, 0⟩] [⟨1, 0⟩]
    [⟨1, 0⟩] [⟨1, 0⟩] [⟨1, 0⟩] [⟨1, 0⟩] [⟨5, 0⟩] [⟨6, 0⟩]
    (by decide) (by decide) (by decide) (by decide)

/-- Claim C5 evaluation: enhanced_response_calibrate builds every
error-term file path under thru_dir (here "B"); the reflection-side OSM
files are not read from the osm_dir argument (here "A"), although the
docstring and the in-function comment of the source say they are. -/
theorem claim_C5_paths :
    enhanced_response_directivity_file "A" "B" =
      "B/enhanced_response_errors/directivity.s1p" ∧
    enhanced_response_reflection_tracking_file "A" "B" =
      "B/enhanced_response_errors/reflection_tracking.s1p" ∧
    enhanced_response_source_match_file "A" "B" =
      "B/enhanced_response_errors/source_match.s1p" ∧
    enhanced_response_transmission_tracking_file "B" =
      "B/enhanced_response_errors/transmission_tracking.s2p" ∧
    enhanced_response_load_match_file "B" =
      "B/enhanced_response_errors/load_match.s2p" ∧
    enhanced_response_directivity_file "A" "B" ≠
      "A/enhanced_response_errors/directivity.s1p" := by
  refine ⟨rfl, rfl, rfl, rfl, rfl, ?_⟩
  decide

/-- Claim C10: the returned corrected vectors of
enhanced_response_calibrate do not depend on the parsed contents of
load_match.s2p - the load-match vector is accepted (presence and
parseability) but never used. -/
theorem claim_C10 (d rt sm tt lm1 lm2 s11 s21 : List Cplx) :
    enhanced_response_calibrate d rt sm tt lm1 s11 s21 =
      enhanced_response_calibrate d rt sm tt lm2 s11 s21 := rfl

theorem readH_append1 (h : Heap) (v : List Cplx) (r : Nat) (hr : r < h.length) :
    readH (h ++ [v]) r = readH h r := by
  simp only [readH, List.getD_eq_getElem?_getD, List.getElem?_append_left hr]

theorem readH_writeSliceH_ne (h : Heap) (r r' s : Nat) (vals : List Cplx)
    (hne : r ≠ r') : readH (writeSliceH h r s vals) r' = readH h r' := by
  simp only [writeSliceH, readH, List.getD_eq_getElem?_getD, List.getElem?_set_ne hne]

/-- Frame property of the common heap shape: a caller cell below the
initial heap size is untouched, and any returned reference is freshly
allocated (at or beyond the initial heap size). -/
theorem calibrateHeapRun_frame (h : Heap) (srcRef : Nat)
    (calib : List Cplx → Option (List Cplx)) (r : Nat) (hr : r < h.length) :
    readH (calibrateHeapRun h srcRef calib).1 r = readH h r ∧
    ∀ out, (calibrateHeapRun h srcRef calib).2 = some out → h.length ≤ out := by
  unfold calibrateHeapRun
  cases hc : calib (readH h srcRef) with
  | none =>
    simp only [hc, allocH]
    exact ⟨readH_append1 h _ r hr, by intro out hout; cases hout⟩
  | some v =>
    simp only [hc, allocH]
    split
    · constructor
      · rw [readH_writeSliceH_ne _ _ _ _ _ (by simp; omega),
          readH_writeSliceH_ne _ _ _ _ _ (by simp; omega),
          readH_append1 _ _ _ (by simp; omega),
          readH_append1 _ _ _ (by simp; omega),
          readH_append1 _ _ _ hr]
      · intro out hout
        injection hout with hout
        subst hout
        simp
    · constructor
      · rw [readH_append1 _ _ _ (by simp; omega), readH_append1 _ _ _ hr]
      · intro out hout
        injection hout with hout
        subst hout
        simp

theorem one_port_heap_frame (h : Heap) (s11Ref s21Ref : Nat)
    (d rt sm tt : List Cplx) (r : Nat) (hr : r < h.length) :
    readH (one_port_n_calibrate_heap h s11Ref s21Ref d rt sm tt).1 r = readH h r ∧
    ∀ p, (one_port_n_calibrate_heap h s11Ref s21Ref d rt sm tt).2 = some p →
      h.length ≤ p.1 ∧ h.length ≤ p.2 := by
  unfold one_port_n_calibrate_heap
  cases h1 : osm_formula_core d rt sm (readH h s11Ref) with
  | none =>
    simp only [h1]
    simp
  | some v1 =>
    cases h2 : bcastOp (· / ·) (readH h s21Ref) tt with
    | none =>
      simp only [h1, h2]
      simp
    | some v2 =>
      simp only [h1, h2, allocH]
      constructor
      · rw [readH_append1 _ _ _ (by simp; omega), readH_append1 _ _ _ hr]
      · intro p hp
        injection hp with hp
        subst hp
        refine ⟨Nat.le_refl _, ?_⟩
        simp

theorem enhanced_heap_frame (h : Heap) (s11Ref s21Ref : Nat)
    (d rt sm tt lm : List Cplx) (r : Nat) (hr : r < h.length) :
    readH (enhanced_response_calibrate_heap h s11Ref s21Ref d rt sm tt lm).1 r =
      readH h r ∧
    ∀ p, (enhanced_response_calibrate_heap h s11Ref s21Ref d rt sm tt lm).2 = some p →
      h.length ≤ p.1 ∧ h.length ≤ p.2 := by
  unfold enhanced_response_calibrate_heap
  cases h1 : enhanced_response_calibrate d rt sm tt lm (readH h s11Ref) (readH h s21Ref) with
  | none =>
    simp only [h1]
    simp
  | some v =>
    simp only [h1, allocH]
    constructor
    · rw [readH_append1 _ _ _ (by simp; omega), readH_append1 _ _ _ hr]
    · intro p hp
      injection hp with hp
      subst hp
      refine ⟨Nat.le_refl _, ?_⟩
      simp

/-- Claim C9: every corrector, run on a heap of numpy arrays, leaves the
caller cells holding the raw S11 and S21 exactly as before the call, and
every reference handed back designates a freshly allocated array. -/
theorem claim_C9 (h : Heap) (r11 r21 : Nat) (d rt sm tt lm : List Cplx)
    (h11 : r11 < h.length) (h21 : r21 < h.length) :
    (readH (osm_calibrate_s11_heap h r11 d rt sm).1 r11 = readH h r11 ∧
      readH (osm_calibrate_s11_heap h r11 d rt sm).1 r21 = readH h r21 ∧
      ∀ r, (osm_calibrate_s11_heap h r11 d rt sm).2 = some r → h.length ≤ r) ∧
    (readH (normalization_calibrate_s21_heap h r21 tt).1 r11 = readH h r11 ∧
      readH (normalization_calibrate_s21_heap h r21 tt).1 r21 = readH h r21 ∧
      ∀ r, (normalization_calibrate_s21_heap h r21 tt).2 = some r → h.length ≤ r) ∧
    (readH (one_port_n_calibrate_heap h r11 r21 d rt sm tt).1 r11 = readH h r11 ∧
      readH (one_port_n_calibrate_heap h r11 r21 d rt sm tt).1 r21 = readH h r21 ∧
      ∀ p, (one_port_n_calibrate_heap h r11 r21 d rt sm tt).2 = some p →
        h.length ≤ p.1 ∧ h.length ≤ p.2) ∧
    (readH (enhanced_response_calibrate_heap h r11 r21 d rt sm tt lm).1 r11 =
        readH h r11 ∧
      readH (enhanced_response_calibrate_heap h r11 r21 d rt sm tt lm).1 r21 =
        readH h r21 ∧
      ∀ p, (enhanced_response_calibrate_heap h r11 r21 d rt sm tt lm).2 = some p →
        h.length ≤ p.1 ∧ h.length ≤ p.2) :=
  ⟨⟨(calibrateHeapRun_frame h r11 _ r11 h11).1,
    (calibrateHeapRun_frame h r11 _ r21 h21).1,
    (calibrateHeapRun_frame h r11 _ r11 h11).2⟩,
   ⟨(calibrateHeapRun_frame h r21 _ r11 h11).1,
    (calibrateHeapRun_frame h r21 _ r21 h21).1,
    (calibrateHeapRun_frame h r21 _ r11 h11).2⟩,
   ⟨(one_port_heap_frame h r11 r21 d rt sm tt r11 h11).1,
    (one_port_heap_frame h r11 r21 d rt sm tt r21 h21).1,
    (one_port_heap_frame h r11 r21 d rt sm tt r11 h11).2⟩,
   ⟨(enhanced_heap_frame h r11 r21 d rt sm tt lm r11 h11).1,
    (enhanced_heap_frame h r11 r21 d rt sm tt lm r21 h21).1,
    (enhanced_heap_frame h r11 r21 d rt sm tt lm r11 h11).2⟩⟩

/-- Witness for claim C9 on a concrete two-cell heap. -/
theorem claim_C9_witness :
    (readH (osm_calibrate_s11_heap [[⟨1, 0⟩], [⟨2, 0⟩]] 0 [⟨0, 0⟩] [⟨1, 0⟩] [⟨0, 0⟩]).1 0 =
        readH [[⟨1, 0⟩], [⟨2, 0⟩]] 0 ∧
      readH (osm_calibrate_s11_heap [[⟨1, 0⟩], [⟨2, 0⟩]] 0 [⟨0, 0⟩] [⟨1, 0⟩] [⟨0, 0⟩]).1 1 =
        readH [[⟨1, 0⟩], [⟨2, 0⟩]] 1 ∧
      ∀ r, (osm_calibrate_s11_heap [[⟨1, 0⟩], [⟨2, 0⟩]] 0 [⟨0, 0⟩] [⟨1, 0⟩] [⟨0, 0⟩]).2 =
          some r → ([[⟨1, 0⟩], [⟨2, 0⟩]] : Heap).length ≤ r) ∧
    (readH (normalization_calibrate_s21_heap [[⟨1, 0⟩], [⟨2, 0⟩]] 1 [⟨1, 0⟩]).1 0 =
        readH [[⟨1, 0⟩], [⟨2, 0⟩]] 0 ∧
      readH (normalization_calibrate_s21_heap [[⟨1, 0⟩], [⟨2, 0⟩]] 1 [⟨1, 0⟩]).1 1 =
        readH [[⟨1, 0⟩], [⟨2, 0⟩]] 1 ∧
      ∀ r, (normalization_calibrate_s21_heap [[⟨1, 0⟩], [⟨2, 0⟩]] 1 [⟨1, 0⟩]).2 =
          some r → ([[⟨1, 0⟩], [⟨2, 0⟩]] : Heap).length ≤ r) ∧
    (readH (one_port_n_calibrate_heap [[⟨1, 0⟩], [⟨2, 0⟩]] 0 1 [⟨0, 0⟩] [⟨1, 0⟩] [⟨0, 0⟩]
          [⟨1, 0⟩]).1 0 = readH [[⟨1, 0⟩], [⟨2, 0⟩]] 0 ∧
      readH (one_port_n_calibrate_heap [[⟨1, 0⟩], [⟨2, 0⟩]] 0 1 [⟨0, 0⟩] [⟨1, 0⟩] [⟨0, 0⟩]
          [⟨1, 0⟩]).1 1 = readH [[⟨1, 0⟩], [⟨2, 0⟩]] 1 ∧
      ∀ p, (one_port_n_calibrate_heap [[⟨1, 0⟩], [⟨2, 0⟩]] 0 1 [⟨0, 0⟩] [⟨1, 0⟩] [⟨0, 0⟩]
          [⟨1, 0⟩]).2 = some p →
        ([[⟨1, 0⟩], [⟨2, 0⟩]] : Heap).length ≤ p.1 ∧
          ([[⟨1, 0⟩], [⟨2, 0⟩]] : Heap).length ≤ p.2) ∧
    (readH (enhanced_response_calibrate_heap [[⟨1, 0⟩], [⟨2, 0⟩]] 0 1 [⟨0, 0⟩] [⟨1, 0⟩]
          [⟨0, 0⟩] [⟨1, 0⟩] [⟨0, 0⟩]).1 0 = readH [[⟨1, 0⟩], [⟨2, 0⟩]] 0 ∧
      readH (enhanced_response_calibrate_heap [[⟨1, 0⟩], [⟨2, 0⟩]] 0 1 [⟨0, 0⟩] [⟨1, 0⟩]
          [⟨0, 0⟩] [⟨1, 0⟩] [⟨0, 0⟩]).1 1 = readH [[⟨1, 0⟩], [⟨2, 0⟩]] 1 ∧
      ∀ p, (enhanced_response_calibrate_heap [[⟨1, 0⟩], [⟨2, 0⟩]] 0 1 [⟨0, 0⟩] [⟨1, 0⟩]
          [⟨0, 0⟩] [⟨1, 0⟩] [⟨0, 0⟩]).2 = some p →
        ([[⟨1, 0⟩], [⟨2, 0⟩]] : Heap).length ≤ p.1 ∧
          ([[⟨1, 0⟩], [⟨2, 0⟩]] : Heap).length ≤ p.2) :=
  claim_C9 [[⟨1, 0⟩], [⟨2, 0⟩]] 0 1 [⟨0, 0⟩] [⟨1, 0⟩] [⟨0, 0⟩] [⟨1, 0⟩] [⟨0, 0⟩]
    (by decide) (by decide)
